import Mathlib

/-
Verification of the jlv streaming pipeline engine and interaction state
machine, shallowly embedded from the Go sources:
  * internal/processor (current revision, the one the model package links
    against): query builders, the two-phase replay/live-tail content read,
    the groups read with its malformed-line self-cancel, and the Run command
    loop that owns the two pipeline slots.
  * internal/model: the bubbletea update loop state that the claims touch
    (content/formatted caches, group set, stop debouncing, selector edits).
External collaborators (the terminal widgets, the Hardwrap helper, OS process
I/O) are modelled at their interface boundary: Hardwrap is an explicit
function argument, the viewport is reduced to its width, its content string
and an at-maximum-scroll flag, and process I/O outcomes (cancellation
observation points, kill success) are explicit boolean parameters of the
event traces.
-/

namespace Jlv

/-! ### Query builder (processor createContentArg / createGroupsSelectorArg,
duplicated verbatim in internal/model/commands.go) -/

namespace Processor

/-- processor createContentArg: empty selector and empty format default to
".".  Group "*" means no group filtering; otherwise the selector's value is
compared against the quoted group string. -/
def createContentArg (selector group format : String) : String :=
  let selector := if selector = "" then "." else selector
  let format := if format = "" then "." else format
  if group = "*" then
    ".|select(" ++ selector ++ ")|" ++ format
  else
    ".|select(" ++ selector ++ "==\"" ++ group ++ "\")|" ++ format

/-- processor createGroupsSelectorArg. -/
def createGroupsSelectorArg (selector : String) : String :=
  if selector = "" then "."
  else ".|select(" ++ selector ++ ")|" ++ selector

end Processor

namespace Commands

/-- internal/model/commands.go createContentArg, a verbatim copy of the
processor's function. -/
def createContentArg (selector group format : String) : String :=
  let selector := if selector = "" then "." else selector
  let format := if format = "" then "." else format
  if group = "*" then
    ".|select(" ++ selector ++ ")|" ++ format
  else
    ".|select(" ++ selector ++ "==\"" ++ group ++ "\")|" ++ format

end Commands

namespace Spec

/-- Modelled from the spec text of the claim (refinement side): empty selector
and empty format are each replaced by "."; when group is the all-sentinel "*"
the result is ".|select(S)|F"; otherwise ".|select(S==\"G\")|F" with the group
compared by exact string equality of the quoted group value. -/
def buildContentQuery (selector group format : String) : String :=
  let s := if selector = "" then "." else selector
  let f := if format = "" then "." else format
  if group = "*" then
    ".|select(" ++ s ++ ")|" ++ f
  else
    ".|select(" ++ s ++ "==\"" ++ group ++ "\")|" ++ f

end Spec

/-! ### Two-phase content read: countLines / head / tail -f arithmetic -/

/-- processor countLines: the number of newline bytes found in one scan of the
file's content. -/
def countLines (content : List Char) : Nat :=
  content.count '\n'

/-- The file's content split at newline bytes, as the line-oriented tools
(head, tail) see it: n newline bytes yield n newline-terminated lines followed
by one (possibly empty) unterminated trailing fragment. -/
def splitLines : List Char → List (List Char)
  | [] => [[]]
  | c :: rest =>
    match splitLines rest with
    | [] => [[]]
    | l :: ls => if c = '\n' then [] :: l :: ls else (c :: l) :: ls

/-- head -n FILE: the first n lines. -/
def headLines (n : Nat) (ls : List (List Char)) : List (List Char) :=
  ls.take n

/-- tail -f -n +k FILE: every line from the k-th (1-based) onward. -/
def tailFromLine (k : Nat) (ls : List (List Char)) : List (List Char) :=
  ls.drop (k - 1)

/-- sendInitialContent counts the file's lines and replays exactly that many
through head (head -N). -/
def replayCount (content : List Char) : Nat :=
  countLines content

/-- streamNewContent receives the counted line number and starts
tail -f -n +(N+1). -/
def liveTailStart (content : List Char) : Nat :=
  replayCount content + 1

/-- The lines delivered by the replay phase. -/
def replayLines (content : List Char) : List (List Char) :=
  headLines (replayCount content) (splitLines content)

/-- The lines at which the live-tail phase starts reading. -/
def liveTailLines (content : List Char) : List (List Char) :=
  tailFromLine (liveTailStart content) (splitLines content)

theorem splitLines_ne_nil (content : List Char) : splitLines content ≠ [] := by
  induction content with
  | nil => simp [splitLines]
  | cons c rest ih =>
    simp only [splitLines]
    match h : splitLines rest with
    | [] => simp
    | l :: ls =>
      by_cases hc : c = '\n' <;> simp [hc]

theorem splitLines_length (content : List Char) :
    (splitLines content).length = countLines content + 1 := by
  induction content with
  | nil => simp [splitLines, countLines]
  | cons c rest ih =>
    simp only [splitLines]
    match h : splitLines rest with
    | [] => exact absurd h (splitLines_ne_nil rest)
    | l :: ls =>
      rw [h] at ih
      by_cases hc : c = '\n'
      · simp [hc, countLines, List.count_cons] at ih ⊢
        omega
      · simp [hc, countLines, List.count_cons] at ih ⊢
        omega

/-- Claim C1: for every content-pipeline start, the replay phase reads exactly
N lines where N = countLines(path), the live tail starts at line N+1
(tail -f -n +(N+1)), and the two phases partition the file's lines at position
N: the replay burst is exactly the first N lines and the live tail is exactly
the rest, so no file line is delivered by both phases of the same pipeline
instance. -/
theorem c1_replay_tail_partition (content : List Char) :
    (replayLines content).length = countLines content ∧
    liveTailStart content = countLines content + 1 ∧
    replayLines content ++ liveTailLines content = splitLines content ∧
    liveTailLines content = (splitLines content).drop (countLines content) := by
  refine ⟨?_, rfl, ?_, ?_⟩
  · rw [replayLines, headLines, List.length_take, splitLines_length]
    simp [replayCount]
  · rw [replayLines, liveTailLines, headLines, tailFromLine, liveTailStart]
    simp [replayCount, List.take_append_drop]
  · rw [liveTailLines, tailFromLine, liveTailStart]
    simp [replayCount]

/-- Claim C6: the content query builder is a pure function (hence deterministic
across calls); the processor's copy and the model package's copy both compute
exactly the spec's query: empty selector and empty format each replaced by
".", group "*" yields ".|select(S)|F", and any other group yields
".|select(S==\"G\")|F" with the group quoted and compared by string
equality. -/
theorem c6_content_query_builder (selector group format : String) :
    Processor.createContentArg selector group format =
      Spec.buildContentQuery selector group format ∧
    Commands.createContentArg selector group format =
      Spec.buildContentQuery selector group format ∧
    Processor.createContentArg selector group format =
      Commands.createContentArg selector group format :=
  ⟨rfl, rfl, rfl⟩

/-! ### Processor messages (the tea.Msg values the processor sends) -/

/-- The messages the current processor revision sends to the program:
JQCommand, ContentStart, ContentLine, ContentError, GroupsStart, GroupsLine,
GroupsError, ContentStopped, GroupsStopped. -/
inductive Msg where
  | jqCommand (jq : String)
  | contentStart (initialContent : List String)
  | contentLine (line : String)
  | contentError (message : String)
  | groupsStart (initialGroups : List String)
  | groupsLine (line : String)
  | groupsError (message : String)
  | contentStopped
  | groupsStopped
deriving DecidableEq, Repr

/-- The spec's StreamEvent taxonomy: every message except the JQCommand footer
metadata is a stream event (Started, Line, GroupDiscovered, Error, Stopped). -/
def isStreamEvent : Msg → Bool
  | .jqCommand _ => false
  | _ => true

/-- Start-of-stream messages: the ContentStart / GroupsStart replay bursts. -/
def isStartMsg : Msg → Bool
  | .contentStart _ => true
  | .groupsStart _ => true
  | _ => false

/-! ### The processor Run command loop: one handler per kind (C2) -/

/-- The three processor operations. -/
inductive OpKind where
  | startContent
  | startGroups
  | stop
deriving DecidableEq, Repr

/-- A stream handler as instrumented state: its creation id, and whether its
cancel function has been called.  In Run the contentHandler / groupsHandler
variable always points at the most recently created handler of that kind, so
we keep the handler history newest-first and cancelling the current handler
cancels the head of the list. -/
structure Handler where
  hid : Nat
  cancelled : Bool
deriving DecidableEq, Repr

/-- Cancel the handler currently installed in a slot (the newest one), as
`if contentHandler != nil { contentHandler.cancel() }` does. -/
def cancelCurrent : List Handler → List Handler
  | [] => []
  | h :: rest => { h with cancelled := true } :: rest

/-- The state of the processor Run loop: the history of content handlers and
of groups handlers (newest first; the head of each list is the handler the
slot variable points at), a fresh-id counter, and whether StopOperation made
the loop return. -/
structure RunState where
  contentHandlers : List Handler
  groupsHandlers : List Handler
  nextId : Nat
  stopped : Bool
deriving Repr

/-- One iteration of the Run loop on one command.  StartContentOperation
cancels the current content handler (if any) and installs a fresh one;
StartGroupsOperation does the same for the groups slot; StopOperation cancels
both and returns from the loop (after which no further command is
processed). -/
def runStep (s : RunState) (op : OpKind) : RunState :=
  if s.stopped then s else
  match op with
  | .startContent =>
    { s with
      contentHandlers := ⟨s.nextId, false⟩ :: cancelCurrent s.contentHandlers
      nextId := s.nextId + 1 }
  | .startGroups =>
    { s with
      groupsHandlers := ⟨s.nextId, false⟩ :: cancelCurrent s.groupsHandlers
      nextId := s.nextId + 1 }
  | .stop =>
    { s with
      contentHandlers := cancelCurrent s.contentHandlers
      groupsHandlers := cancelCurrent s.groupsHandlers
      stopped := true }

/-- Run's initial state: both handler variables nil. -/
def runInit : RunState :=
  ⟨[], [], 0, false⟩

/-- The Run loop over a whole command sequence. -/
def runProc (ops : List OpKind) : RunState :=
  ops.foldl runStep runInit

/-- Instrumentation: the number of live (never-cancelled) handlers in a
slot's history. -/
def activeCount (hs : List Handler) : Nat :=
  (hs.filter (fun h => !h.cancelled)).length

/-- The Run loop invariant: every handler except the currently installed one
(the newest) has been cancelled. -/
def tailCancelled (hs : List Handler) : Prop :=
  ∀ h ∈ hs.tail, h.cancelled = true

theorem activeCount_le_one_of_tailCancelled (hs : List Handler)
    (h : tailCancelled hs) : activeCount hs ≤ 1 := by
  match hs with
  | [] => simp [activeCount]
  | hd :: rest =>
    have hrest : ∀ x ∈ rest, x.cancelled = true := by
      intro x hx
      exact h x (by simpa using hx)
    have : rest.filter (fun h => !h.cancelled) = [] := by
      apply List.filter_eq_nil_iff.mpr
      intro x hx
      simp [hrest x hx]
    by_cases hc : hd.cancelled <;>
      simp [activeCount, List.filter_cons, hc, this]

theorem tailCancelled_cancelCurrent (hs : List Handler)
    (h : tailCancelled hs) : tailCancelled (cancelCurrent hs) := by
  match hs with
  | [] => simp [cancelCurrent, tailCancelled]
  | hd :: rest =>
    intro x hx
    exact h x (by simpa [cancelCurrent] using hx)

theorem cancelCurrent_all_cancelled (hs : List Handler)
    (h : tailCancelled hs) : ∀ x ∈ cancelCurrent hs, x.cancelled = true := by
  match hs with
  | [] => simp [cancelCurrent]
  | hd :: rest =>
    intro x hx
    simp only [cancelCurrent, List.mem_cons] at hx
    rcases hx with hx | hx
    · simp [hx]
    · exact h x (by simpa using hx)

theorem runStep_preserves (s : RunState) (op : OpKind)
    (hc : tailCancelled s.contentHandlers)
    (hg : tailCancelled s.groupsHandlers) :
    tailCancelled (runStep s op).contentHandlers ∧
      tailCancelled (runStep s op).groupsHandlers := by
  by_cases hstop : s.stopped
  · simp [runStep, hstop]
    exact ⟨hc, hg⟩
  · cases op with
    | startContent =>
      refine ⟨?_, ?_⟩
      · intro x hx
        simp only [runStep, hstop, if_false, List.tail_cons] at hx
        exact cancelCurrent_all_cancelled s.contentHandlers hc x hx
      · simpa [runStep, hstop] using hg
    | startGroups =>
      refine ⟨?_, ?_⟩
      · simpa [runStep, hstop] using hc
      · intro x hx
        simp only [runStep, hstop, if_false, List.tail_cons] at hx
        exact cancelCurrent_all_cancelled s.groupsHandlers hg x hx
    | stop =>
      simp only [runStep, hstop, if_false]
      exact ⟨tailCancelled_cancelCurrent _ hc, tailCancelled_cancelCurrent _ hg⟩

theorem runProc_tailCancelled (ops : List OpKind) :
    tailCancelled (runProc ops).contentHandlers ∧
      tailCancelled (runProc ops).groupsHandlers := by
  suffices h : ∀ (ops : List OpKind) (s : RunState),
      tailCancelled s.contentHandlers → tailCancelled s.groupsHandlers →
      tailCancelled (ops.foldl runStep s).contentHandlers ∧
        tailCancelled (ops.foldl runStep s).groupsHandlers by
    exact h ops runInit (by simp [runInit, tailCancelled]) (by simp [runInit, tailCancelled])
  intro ops
  induction ops with
  | nil => intro s hc hg; exact ⟨hc, hg⟩
  | cons op rest ih =>
    intro s hc hg
    have step := runStep_preserves s op hc hg
    exact ih (runStep s op) step.1 step.2

/-- Claim C2: for every sequence of commands processed by the processor Run
loop, at most one content stream handler and at most one groups stream handler
are live at any observation point: each start operation cancels the existing
handler of its kind before installing a fresh one, and StopOperation cancels
both, so the count of never-cancelled handlers per kind never exceeds one. -/
theorem c2_at_most_one_handler (ops : List OpKind) :
    activeCount (runProc ops).contentHandlers ≤ 1 ∧
      activeCount (runProc ops).groupsHandlers ≤ 1 := by
  have h := runProc_tailCancelled ops
  exact ⟨activeCount_le_one_of_tailCancelled _ h.1,
    activeCount_le_one_of_tailCancelled _ h.2⟩

/-! ### Shutdown debouncing in the model Update loop (C5) -/

/-- model.go Update, the ContentStopped / GroupsStopped cases: the matching
flag is set, and tea.Quit is issued only when the other kind's flag is already
set.  Every other message leaves both flags alone and issues no quit.  The
state is the pair (contentStopped, groupsStopped) and the Bool result records
whether this message issued tea.Quit. -/
def updateStops : Bool × Bool → Msg → (Bool × Bool) × Bool
  | (_, g), .contentStopped => ((true, g), g)
  | (c, _), .groupsStopped => ((c, true), c)
  | s, _ => (s, false)

/-- The Update loop folded over a message sequence, counting how many times
tea.Quit was issued. -/
def runStops : Bool × Bool → List Msg → (Bool × Bool) × Nat
  | s, [] => (s, 0)
  | s, m :: rest =>
    let r := updateStops s m
    let r2 := runStops r.1 rest
    (r2.1, (if r.2 then 1 else 0) + r2.2)

theorem runStops_quit_count (msgs : List Msg) (c g : Bool)
    (hc : c = true → msgs.count Msg.contentStopped = 0)
    (hg : g = true → msgs.count Msg.groupsStopped = 0)
    (hc1 : msgs.count Msg.contentStopped ≤ 1)
    (hg1 : msgs.count Msg.groupsStopped ≤ 1) :
    (runStops (c, g) msgs).2 =
      if (c = true ∨ Msg.contentStopped ∈ msgs) ∧
         (g = true ∨ Msg.groupsStopped ∈ msgs) ∧ ¬(c = true ∧ g = true)
      then 1 else 0 := by
  induction msgs generalizing c g with
  | nil =>
    cases c <;> cases g <;> simp [runStops]
  | cons m rest ih =>
    match m with
    | .contentStopped =>
      have hcount : (Msg.contentStopped :: rest).count Msg.contentStopped =
          rest.count Msg.contentStopped + 1 := by
        simp [List.count_cons]
      have hcfalse : c = false := by
        by_contra hcc
        have : c = true := by revert hcc; cases c <;> simp
        have := hc this
        omega
      have hrest0 : rest.count Msg.contentStopped = 0 := by omega
      have hgcount : (Msg.contentStopped :: rest).count Msg.groupsStopped =
          rest.count Msg.groupsStopped := by
        simp [List.count_cons]
      subst hcfalse
      simp only [runStops, updateStops]
      rw [ih true g (fun _ => hrest0)
        (fun hgg => by have := hg hgg; omega)
        (by omega) (by omega)]
      have hnotc : Msg.contentStopped ∉ rest := by
        rw [← List.count_eq_zero]; exact hrest0
      by_cases hgg : g = true
      · have hgrest : Msg.groupsStopped ∉ rest := by
          rw [← List.count_eq_zero]
          have := hg hgg; omega
        simp [hgg, hgrest]
      · have hgf : g = false := by revert hgg; cases g <;> simp
        subst hgf
        by_cases hgin : Msg.groupsStopped ∈ rest
        · simp [hgin]
        · simp [hgin]
    | .groupsStopped =>
      have hcount : (Msg.groupsStopped :: rest).count Msg.groupsStopped =
          rest.count Msg.groupsStopped + 1 := by
        simp [List.count_cons]
      have hgfalse : g = false := by
        by_contra hgg
        have : g = true := by revert hgg; cases g <;> simp
        have := hg this
        omega
      have hrest0 : rest.count Msg.groupsStopped = 0 := by omega
      have hccount : (Msg.groupsStopped :: rest).count Msg.contentStopped =
          rest.count Msg.contentStopped := by
        simp [List.count_cons]
      subst hgfalse
      simp only [runStops, updateStops]
      rw [ih c true
        (fun hcc => by have := hc hcc; omega)
        (fun _ => hrest0)
        (by omega) (by omega)]
      have hnotg : Msg.groupsStopped ∉ rest := by
        rw [← List.count_eq_zero]; exact hrest0
      by_cases hcc : c = true
      · have hcrest : Msg.contentStopped ∉ rest := by
          rw [← List.count_eq_zero]
          have := hc hcc; omega
        simp [hcc, hcrest]
      · have hcf : c = false := by revert hcc; cases c <;> simp
        subst hcf
        by_cases hcin : Msg.contentStopped ∈ rest
        · simp [hcin]
        · simp [hcin]
    | .jqCommand s =>
      simp only [runStops, updateStops]
      rw [ih c g (by simpa using hc) (by simpa using hg)
        (by simpa using hc1) (by simpa using hg1)]
      simp
    | .contentStart b =>
      simp only [runStops, updateStops]
      rw [ih c g (by simpa using hc) (by simpa using hg)
        (by simpa using hc1) (by simpa using hg1)]
      simp
    | .contentLine l =>
      simp only [runStops, updateStops]
      rw [ih c g (by simpa using hc) (by simpa using hg)
        (by simpa using hc1) (by simpa using hg1)]
      simp
    | .contentError e =>
      simp only [runStops, updateStops]
      rw [ih c g (by simpa using hc) (by simpa using hg)
        (by simpa using hc1) (by simpa using hg1)]
      simp
    | .groupsStart b =>
      simp only [runStops, updateStops]
      rw [ih c g (by simpa using hc) (by simpa using hg)
        (by simpa using hc1) (by simpa using hg1)]
      simp
    | .groupsLine l =>
      simp only [runStops, updateStops]
      rw [ih c g (by simpa using hc) (by simpa using hg)
        (by simpa using hc1) (by simpa using hg1)]
      simp
    | .groupsError e =>
      simp only [runStops, updateStops]
      rw [ih c g (by simpa using hc) (by simpa using hg)
        (by simpa using hc1) (by simpa using hg1)]
      simp

/-- Claim C5: shutdown quits exactly once, and only after both sides have
confirmed termination.  At every observation point n of any message sequence
that carries at most one ContentStopped and at most one GroupsStopped (the
processor sends each exactly once), the number of tea.Quit commands issued so
far is 1 when both stop confirmations have arrived and 0 otherwise: receiving
only one of the two never triggers quit, and quit fires at the message that
completes the pair. -/
theorem c5_quit_after_both_stopped (msgs : List Msg) (n : Nat)
    (hc1 : msgs.count Msg.contentStopped ≤ 1)
    (hg1 : msgs.count Msg.groupsStopped ≤ 1) :
    (runStops (false, false) (msgs.take n)).2 =
      if Msg.contentStopped ∈ msgs.take n ∧ Msg.groupsStopped ∈ msgs.take n
      then 1 else 0 := by
  have hsub : List.Sublist (msgs.take n) msgs := List.take_sublist n msgs
  have hc' : (msgs.take n).count Msg.contentStopped ≤ 1 :=
    le_trans (hsub.count_le Msg.contentStopped) hc1
  have hg' : (msgs.take n).count Msg.groupsStopped ≤ 1 :=
    le_trans (hsub.count_le Msg.groupsStopped) hg1
  rw [runStops_quit_count (msgs.take n) false false
    (by simp) (by simp) hc' hg']
  simp

/-- Witness for C5: the two-message sequence ContentStopped, GroupsStopped
quits exactly once when observed after both messages. -/
theorem c5_quit_after_both_stopped_witness :
    (runStops (false, false)
        (([Msg.contentStopped, Msg.groupsStopped] : List Msg).take 2)).2 =
      if Msg.contentStopped ∈ ([Msg.contentStopped, Msg.groupsStopped] : List Msg).take 2 ∧
         Msg.groupsStopped ∈ ([Msg.contentStopped, Msg.groupsStopped] : List Msg).take 2
      then 1 else 0 :=
  c5_quit_after_both_stopped [Msg.contentStopped, Msg.groupsStopped] 2
    (by decide) (by decide)

/-! ### Pipeline cancellation before the replay burst (C3)

The current processor revision's sendInitialContent / sendInitialGroups run a
fixed sequence of steps: send JQCommand (content only), countLines, join,
start, io.ReadAll, kill, then a select on ctx.Done() immediately before the
replay burst is sent.  We model the happy I/O path and expose the cooperative
cancellation at its two observation points as booleans:
cancelledAtStart (the context was already Done when start() ran, so Start
returns context.Canceled, which the code suppresses) and cancelledAtCheck
(the context was Done at the select check, so the buffered burst is
discarded and 0, nil is returned).  killOk records whether the explicit kill
of the replay children succeeded; a failed kill sends an Error diagnostic and
aborts the stream. -/

/-- sendInitialContent: the messages sent and whether a non-nil error was
returned (which makes streamContent skip the live-tail phase). -/
def sendInitialContentMsgs (jq : String) (killOk cancelledAtStart cancelledAtCheck : Bool)
    (burst : List String) : List Msg × Bool :=
  if cancelledAtStart then ([Msg.jqCommand jq], true)
  else if killOk = false then
    ([Msg.jqCommand jq, Msg.contentError "sendInitialContent kill"], true)
  else if cancelledAtCheck then ([Msg.jqCommand jq], false)
  else ([Msg.jqCommand jq, Msg.contentStart burst], false)

/-- streamNewContent: with the context already Done, start() fails with the
suppressed context.Canceled and nothing is sent; otherwise every scanned live
line is sent as a ContentLine. -/
def streamNewContentMsgs (cancelled : Bool) (liveLines : List String) : List Msg :=
  if cancelled then [] else liveLines.map Msg.contentLine

/-- streamContent: the replay phase followed, when it returned no error, by
the live-tail phase. -/
def streamContentTrace (jq : String) (killOk cancelledAtStart cancelledAtCheck : Bool)
    (burst liveLines : List String) : List Msg :=
  let r := sendInitialContentMsgs jq killOk cancelledAtStart cancelledAtCheck burst
  r.1 ++ (if r.2 then [] else streamNewContentMsgs cancelledAtCheck liveLines)

/-- sendInitialGroups: same step sequence as sendInitialContent but with no
JQCommand message, GroupsStart instead of ContentStart, and GroupsError
diagnostics (the kill diagnostic keeps the source's copy-pasted
"sendInitialContent kill" text). -/
def sendInitialGroupsMsgs (killOk cancelledAtStart cancelledAtCheck : Bool)
    (burst : List String) : List Msg × Bool :=
  if cancelledAtStart then ([], true)
  else if killOk = false then
    ([Msg.groupsError "sendInitialContent kill"], true)
  else if cancelledAtCheck then ([], false)
  else ([Msg.groupsStart burst], false)

/-- streamNewGroups live phase under an already-Done context: start() fails
with the suppressed context.Canceled and nothing is sent. -/
def streamNewGroupsCancelledMsgs (cancelled : Bool) (liveLines : List String) : List Msg :=
  if cancelled then [] else liveLines.map Msg.groupsLine

/-- streamGroups: replay phase then, when no error, the live phase. -/
def streamGroupsTrace (killOk cancelledAtStart cancelledAtCheck : Bool)
    (burst liveLines : List String) : List Msg :=
  let r := sendInitialGroupsMsgs killOk cancelledAtStart cancelledAtCheck burst
  r.1 ++ (if r.2 then [] else streamNewGroupsCancelledMsgs cancelledAtCheck liveLines)

/-- Claim C3: if a pipeline instance's cancellation is signalled before its
replay burst has been delivered (the ctx.Done() select observes the
cancellation), then the ContentStart / GroupsStart message carrying the
buffered replay lines is never sent, regardless of how the kill of the replay
children went; and on the normal teardown path (kill succeeds) zero stream
events from that pipeline instance reach the UI — the only message ever sent
is the JQCommand footer metadata of the content side. -/
theorem c3_cancel_suppresses_burst (jq : String)
    (killOk cancelledAtStart : Bool) (cancelledAtCheck : Bool)
    (burst liveLines : List String)
    (h : cancelledAtCheck = true) :
    (streamContentTrace jq killOk cancelledAtStart cancelledAtCheck
        burst liveLines).filter isStartMsg = [] ∧
    (streamGroupsTrace killOk cancelledAtStart cancelledAtCheck
        burst liveLines).filter isStartMsg = [] ∧
    (killOk = true →
      (streamContentTrace jq killOk cancelledAtStart cancelledAtCheck
          burst liveLines).filter isStreamEvent = [] ∧
      (streamGroupsTrace killOk cancelledAtStart cancelledAtCheck
          burst liveLines).filter isStreamEvent = []) := by
  subst h
  refine ⟨?_, ?_, ?_⟩
  · cases cancelledAtStart <;> cases killOk <;>
      simp [streamContentTrace, sendInitialContentMsgs, streamNewContentMsgs,
        isStartMsg]
  · cases cancelledAtStart <;> cases killOk <;>
      simp [streamGroupsTrace, sendInitialGroupsMsgs,
        streamNewGroupsCancelledMsgs, isStartMsg]
  · intro hk
    subst hk
    cases cancelledAtStart <;>
      simp [streamContentTrace, sendInitialContentMsgs, streamNewContentMsgs,
        streamGroupsTrace, sendInitialGroupsMsgs,
        streamNewGroupsCancelledMsgs, isStreamEvent]

/-- Witness for C3: a pipeline for query ".|select(.)|." over the burst
["a"] and live line ["b"], cancelled at the pre-burst check with a clean
kill, delivers no start message and no stream event at all. -/
theorem c3_cancel_suppresses_burst_witness :
    (streamContentTrace ".|select(.)|." true false true
        ["a"] ["b"]).filter isStartMsg = [] ∧
    (streamGroupsTrace true false true
        ["a"] ["b"]).filter isStartMsg = [] ∧
    (true = true →
      (streamContentTrace ".|select(.)|." true false true
          ["a"] ["b"]).filter isStreamEvent = [] ∧
      (streamGroupsTrace true false true
          ["a"] ["b"]).filter isStreamEvent = []) :=
  c3_cancel_suppresses_burst ".|select(.)|." true false true ["a"] ["b"] rfl

/-! ### The groups live stream and the malformed-line self-cancel (C4) -/

/-- streamNewGroups' content sniff: a live group line is judged malformed when
it is empty or its first character is an opening brace or an opening
bracket. -/
def isMalformedGroupLine (line : String) : Bool :=
  line = "" || line.front == '{' || line.front == '['

/-- The streamNewGroups scan loop on the live lines, on the path where no
external cancellation arrives: each well-formed line is sent as a GroupsLine;
at the first malformed line the handler cancels its own context, kills its
children (sending a GroupsError diagnostic only when the kill fails) and
returns.  The Bool result records whether the self-cancel fired. -/
def streamNewGroupsMsgs (killOk : Bool) : List String → List Msg × Bool
  | [] => ([], false)
  | line :: rest =>
    if isMalformedGroupLine line then
      ((if killOk then [] else [Msg.groupsError "streamGroups kill"]), true)
    else
      let r := streamNewGroupsMsgs killOk rest
      (Msg.groupsLine line :: r.1, r.2)

/-! ### The model's group set (C4 UI side, C10) -/

/-- NewModel: the group set starts as the singleton map holding the "*"
sentinel. -/
def initGroups : Finset String :=
  insert "*" ∅

/-- The model's group set after one processor message:
handleProcessorGroupsStart resets the map to "*" plus the initial burst,
handleProcessorGroupError resets it to "*" alone, handleProcessorGroupLine
inserts the delivered group, and every other message leaves it unchanged. -/
def stepGroupsMsg (g : Finset String) : Msg → Finset String
  | .groupsStart initialGroups =>
    initialGroups.foldl (fun acc x => insert x acc) (insert "*" ∅)
  | .groupsError _ => insert "*" ∅
  | .groupsLine line => insert line g
  | _ => g

/-- An action that can touch the model's group set: a processor message, or
the reloadGroups command (issued on a selector change), which resets the map
to the "*" sentinel before commanding a groups restart. -/
inductive GroupsAction where
  | processorMsg (m : Msg)
  | reloadGroups
deriving DecidableEq, Repr

/-- One group-set transition. -/
def stepGroupsAction (g : Finset String) : GroupsAction → Finset String
  | .processorMsg m => stepGroupsMsg g m
  | .reloadGroups => insert "*" ∅

theorem mem_foldl_insert (a : String) (l : List String) (s : Finset String)
    (h : a ∈ s) : a ∈ l.foldl (fun acc x => insert x acc) s := by
  induction l generalizing s with
  | nil => exact h
  | cons x rest ih => exact ih _ (Finset.mem_insert_of_mem h)

/-- Claim C4 counterexample: the claim's "the UI's group list then contains
only the \"*\" sentinel" is false.  Concretely, with an empty initial burst
and live lines ["a", "[1]"], the second line is malformed and triggers the
self-cancel, yet the group "a" delivered before it stays in the model's set,
which therefore is not the "*" singleton. -/
theorem c4_malformed_counterexample :
    isMalformedGroupLine "[1]" = true ∧
    (streamNewGroupsMsgs true ["a", "[1]"]).2 = true ∧
    (streamNewGroupsMsgs true ["a", "[1]"]).1.foldl stepGroupsMsg
        (stepGroupsMsg initGroups (Msg.groupsStart [])) ≠ initGroups := by
  refine ⟨rfl, rfl, ?_⟩
  decide

/-- Claim C4 as amended: when the groups live stream reads a malformed line
(empty, or starting with an opening brace or bracket) the handler self-cancels
and emits no further group event — in particular the malformed line itself is
never delivered, so no JSON fragment enters the UI group list — and no error
is surfaced when the kill of its children succeeds; the model's group set then
consists of the "*" sentinel plus exactly the groups delivered before the
malformed line, which is the "*" singleton exactly when the malformed line was
the first live delivery after an empty initial burst. -/
theorem c4_malformed_self_cancel (good rest : List String) (line : String)
    (killOk : Bool)
    (hgood : ∀ l ∈ good, isMalformedGroupLine l = false)
    (hline : isMalformedGroupLine line = true) :
    (streamNewGroupsMsgs killOk (good ++ line :: rest)).1 =
      good.map Msg.groupsLine ++
        (if killOk then [] else [Msg.groupsError "streamGroups kill"]) ∧
    (streamNewGroupsMsgs killOk (good ++ line :: rest)).2 = true ∧
    (killOk = true →
      (streamNewGroupsMsgs killOk (good ++ line :: rest)).1.foldl stepGroupsMsg
          (stepGroupsMsg initGroups (Msg.groupsStart [])) =
        good.foldl (fun acc l => insert l acc) (insert "*" ∅)) ∧
    "*" ∈ good.foldl (fun acc l => insert l acc) (insert "*" (∅ : Finset String)) := by
  have htrace : ∀ good : List String, (∀ l ∈ good, isMalformedGroupLine l = false) →
      streamNewGroupsMsgs killOk (good ++ line :: rest) =
        (good.map Msg.groupsLine ++
          (if killOk then [] else [Msg.groupsError "streamGroups kill"]), true) := by
    intro good hg
    induction good with
    | nil => simp [streamNewGroupsMsgs, hline]
    | cons x xs ih =>
      have hx : isMalformedGroupLine x = false := hg x (by simp)
      have hxs : ∀ l ∈ xs, isMalformedGroupLine l = false := fun l hl => hg l (by simp [hl])
      simp only [List.cons_append, streamNewGroupsMsgs, hx, Bool.false_eq_true,
        if_false]
      rw [List.append_eq, ih hxs]
      simp
  refine ⟨by rw [htrace good hgood], by rw [htrace good hgood], ?_, ?_⟩
  · intro hk
    subst hk
    rw [htrace good hgood]
    simp only [if_true, List.append_nil]
    have hstart : stepGroupsMsg initGroups (Msg.groupsStart []) = insert "*" ∅ := by
      simp [stepGroupsMsg]
    rw [hstart, List.foldl_map]
    rfl
  · exact mem_foldl_insert "*" good _ (Finset.mem_insert_self _ _)

/-- Witness for C4 as amended: one good live line "a" before the malformed
line "[1]", with a clean kill: only GroupsLine "a" is emitted, the self-cancel
fires, and the model's group set ends as the insert-fold of ["a"] over the
"*" singleton. -/
theorem c4_malformed_self_cancel_witness :
    (streamNewGroupsMsgs true (["a"] ++ "[1]" :: [])).1 =
      ["a"].map Msg.groupsLine ++
        (if true then [] else [Msg.groupsError "streamGroups kill"]) ∧
    (streamNewGroupsMsgs true (["a"] ++ "[1]" :: [])).2 = true ∧
    (true = true →
      (streamNewGroupsMsgs true (["a"] ++ "[1]" :: [])).1.foldl stepGroupsMsg
          (stepGroupsMsg initGroups (Msg.groupsStart [])) =
        (["a"] : List String).foldl (fun acc l => insert l acc) (insert "*" ∅)) ∧
    "*" ∈ (["a"] : List String).foldl (fun acc l => insert l acc)
        (insert "*" (∅ : Finset String)) :=
  c4_malformed_self_cancel ["a"] [] "[1]" true (by decide) (by decide)

/-- Claim C10: the "*" sentinel is a member of the model's group set in every
reachable state: it is inserted at construction, re-inserted by every reset
(groups restart, groups-start event, groups error), and group-line events only
add elements; consequently the rendered group list, which sorts the set's
elements, is never empty. -/
theorem c10_star_always_present (actions : List GroupsAction) :
    "*" ∈ actions.foldl stepGroupsAction initGroups ∧
      actions.foldl stepGroupsAction initGroups ≠ ∅ := by
  have hmem : ∀ (actions : List GroupsAction) (g : Finset String),
      "*" ∈ g → "*" ∈ actions.foldl stepGroupsAction g := by
    intro actions
    induction actions with
    | nil => intro g h; exact h
    | cons a rest ih =>
      intro g h
      refine ih _ ?_
      cases a with
      | reloadGroups => exact Finset.mem_insert_self _ _
      | processorMsg m =>
        cases m with
        | groupsStart b => exact mem_foldl_insert _ b _ (Finset.mem_insert_self _ _)
        | groupsError e => exact Finset.mem_insert_self _ _
        | groupsLine l => exact Finset.mem_insert_of_mem h
        | jqCommand s => exact h
        | contentStart b => exact h
        | contentLine l => exact h
        | contentError e => exact h
        | contentStopped => exact h
        | groupsStopped => exact h
  have h := hmem actions initGroups (Finset.mem_insert_self _ _)
  exact ⟨h, Finset.ne_empty_of_mem h⟩

/-! ### Interaction state machine (internal/model/model.go) -/

/-- Which window has focus (selectedWindowIndex). -/
inductive WindowIndex where
  | selectorWindow
  | formatWindow
  | groupsWindow
  | outputWindow
deriving DecidableEq, Repr

/-- The viewport widget at its interface boundary: its width, its content
string, and whether its scroll position is at the maximum (the render layer's
scrolling internals are out of scope). -/
structure Viewport where
  width : Nat
  content : String
  atMax : Bool
deriving DecidableEq, Repr

/-- viewport SetContent: replaces the content; the scroll position is not
re-pinned by SetContent itself. -/
def Viewport.setContent (v : Viewport) (c : String) : Viewport :=
  { v with content := c, atMax := false }

/-- viewport GotoBottom: scrolls to the maximum position. -/
def Viewport.gotoBottom (v : Viewport) : Viewport :=
  { v with atMax := true }

/-- viewport GotoTop: scrolls to the top. -/
def Viewport.gotoTop (v : Viewport) : Viewport :=
  { v with atMax := false }

/-- The Model fields the verified claims touch.  The textinput and list
widgets are collaborators; only the selector's current value and the groups
set are modelled.  Width bookkeeping for the panes other than the output
viewport is omitted. -/
structure ModelState where
  selectorValue : String
  formatValue : String
  groups : Finset String
  rawOutputContent : List String
  outputContent : List String
  path : String
  jq : String
  zoomed : Bool
  wrap : Bool
  lineNumbers : Bool
  width : Nat
  height : Nat
  atBottom : Bool
  selectedWindow : WindowIndex
  contentStopped : Bool
  groupsStopped : Bool
  outputModel : Viewport
deriving DecidableEq

/-- fmt.Sprintf with the "%5d" verb: the decimal digits left-padded with
spaces to at least five columns. -/
def padNum (n : Nat) : String :=
  let s := toString n
  if s.length < 5 then String.mk (List.replicate (5 - s.length) ' ') ++ s else s

/-- formatContentLine: optional "%5d: " line-number prepend, then either a
truncation to the viewport width (line[:min(len(line), width)]) or a
hard-wrap at that width.  ansi.Hardwrap is an external collaborator and is
passed in as a function; both branches return a single list element (the
wrapped form keeps its embedded line breaks inside one string, exactly as the
Go function returns []string{line}). -/
def formatContentLine (hardwrap : Nat → String → String)
    (wrapped lineNumbers : Bool) (idx width : Nat) (line : String) : List String :=
  let line := if lineNumbers then padNum idx ++ ": " ++ line else line
  if !wrapped then
    [line.take (min line.length width)]
  else
    [hardwrap width line]

/-- handleProcessorContentLine: append the raw line to the raw cache, append
its formatted form (numbered with the next formatted index, at the current
viewport width) to the formatted cache, push the joined cache into the
viewport, and re-pin to the bottom when the pin flag is set. -/
def handleProcessorContentLine (hardwrap : Nat → String → String)
    (m : ModelState) (line : String) : ModelState :=
  let raw := m.rawOutputContent ++ [line]
  let oc := m.outputContent ++
    formatContentLine hardwrap m.wrap m.lineNumbers
      (m.outputContent.length + 1) m.outputModel.width line
  let vp := m.outputModel.setContent (String.intercalate "\n" oc)
  let vp := if m.atBottom then vp.gotoBottom else vp
  { m with rawOutputContent := raw, outputContent := oc, outputModel := vp }

/-- The reformat loop inside updateOutputModelContent: every raw line is
formatted at the current flags and viewport width, with 1-based indices. -/
def reformatLines (hardwrap : Nat → String → String)
    (wrapped lineNumbers : Bool) (width : Nat) : Nat → List String → List String
  | _, [] => []
  | idx, l :: rest =>
    formatContentLine hardwrap wrapped lineNumbers idx width l ++
      reformatLines hardwrap wrapped lineNumbers width (idx + 1) rest

/-- updateOutputModelContent: rebuild the whole formatted cache from the raw
cache at the current display parameters, push it into the viewport, and re-pin
to the bottom when the pin flag is set. -/
def updateOutputModelContent (hardwrap : Nat → String → String)
    (m : ModelState) : ModelState :=
  let oc := reformatLines hardwrap m.wrap m.lineNumbers m.outputModel.width 1
    m.rawOutputContent
  let vp := m.outputModel.setContent (String.intercalate "\n" oc)
  let vp := if m.atBottom then vp.gotoBottom else vp
  { m with outputContent := oc, outputModel := vp }

/-- The display branches of handleGlobalKey: "w" toggles wrap and "l" toggles
line numbers (output window only; both reformat the cached raw lines), "G"
jumps to the bottom and sets the pin flag, "g" clears the pin flag and jumps
to the top.  The focus-cycling, zoom and escape branches drive collaborator
widgets and the processor channel and are not part of the embedded state.
The Bool result is the handled flag. -/
def handleGlobalKey (hardwrap : Nat → String → String)
    (m : ModelState) (key : String) : ModelState × Bool :=
  if key = "w" then
    if m.selectedWindow = .outputWindow then
      (updateOutputModelContent hardwrap { m with wrap := !m.wrap }, true)
    else (m, false)
  else if key = "l" then
    if m.selectedWindow = .outputWindow then
      (updateOutputModelContent hardwrap { m with lineNumbers := !m.lineNumbers }, true)
    else (m, false)
  else if key = "G" then
    if m.selectedWindow = .outputWindow then
      ({ m with outputModel := m.outputModel.gotoBottom, atBottom := true }, true)
    else (m, false)
  else if key = "g" then
    if m.selectedWindow = .outputWindow then
      ({ m with atBottom := false, outputModel := m.outputModel.gotoTop }, true)
    else (m, false)
  else (m, false)

/-- The processor Command record. -/
structure ProcCommand where
  operation : OpKind
  selector : String
  format : String
  group : String
  path : String
deriving DecidableEq, Repr

/-- reloadGroups: reset the group set to the "*" sentinel and command the
processor to restart the groups pipeline with the current selector value. -/
def reloadGroups (m : ModelState) : ModelState × Option ProcCommand :=
  ({ m with groups := insert "*" ∅ },
    some ⟨.startGroups, m.selectorValue, "", "", m.path⟩)

/-- strings.HasSuffix(v, "."): the last byte of v is a dot. -/
def hasSuffixDot (v : String) : Bool :=
  v.data.getLast? == some '.'

/-- handleSelectorMessage, with the textinput update abstracted to the new
value the edit produced: when the value did not change nothing happens; when
the new value has length greater than one and ends in "." the restart is
rejected ("a selector that ends in a '.' is never valid"); otherwise
reloadGroups runs. -/
def handleSelectorMessage (m : ModelState) (newValue : String) :
    ModelState × Option ProcCommand :=
  let origValue := m.selectorValue
  let m := { m with selectorValue := newValue }
  if origValue = newValue then (m, none)
  else if 1 < newValue.data.length ∧ hasSuffixDot newValue = true then (m, none)
  else reloadGroups m

theorem formatContentLine_length (hardwrap : Nat → String → String)
    (wrapped lineNumbers : Bool) (idx width : Nat) (line : String) :
    (formatContentLine hardwrap wrapped lineNumbers idx width line).length = 1 := by
  unfold formatContentLine
  cases wrapped <;> simp

theorem handleProcessorContentLine_fields (hardwrap : Nat → String → String)
    (m : ModelState) (line : String) :
    (handleProcessorContentLine hardwrap m line).rawOutputContent =
        m.rawOutputContent ++ [line] ∧
    (handleProcessorContentLine hardwrap m line).outputContent =
        m.outputContent ++
          formatContentLine hardwrap m.wrap m.lineNumbers
            (m.outputContent.length + 1) m.outputModel.width line ∧
    (handleProcessorContentLine hardwrap m line).atBottom = m.atBottom ∧
    (m.atBottom = true →
      (handleProcessorContentLine hardwrap m line).outputModel.atMax = true) := by
  refine ⟨rfl, rfl, rfl, ?_⟩
  intro h
  simp [handleProcessorContentLine, h, Viewport.gotoBottom]

/-- Claim C7: while the pin flag is set, every content-line event appends
exactly one line to the raw cache and one formatted entry to the formatted
cache, the previously cached formatted content is preserved as a prefix, the
viewport is scrolled to the bottom, and the pin flag stays set — so N events
grow the formatted cache by exactly N logical lines. -/
theorem c7_pinned_content_append (hardwrap : Nat → String → String)
    (m : ModelState) (lines : List String) (h : m.atBottom = true) :
    (lines.foldl (handleProcessorContentLine hardwrap) m).rawOutputContent =
        m.rawOutputContent ++ lines ∧
    (lines.foldl (handleProcessorContentLine hardwrap) m).outputContent.length =
        m.outputContent.length + lines.length ∧
    (lines.foldl (handleProcessorContentLine hardwrap) m).outputContent.take
        m.outputContent.length = m.outputContent ∧
    (lines.foldl (handleProcessorContentLine hardwrap) m).atBottom = true ∧
    (lines ≠ [] →
      (lines.foldl (handleProcessorContentLine hardwrap) m).outputModel.atMax = true) := by
  induction lines generalizing m with
  | nil =>
    refine ⟨by simp, by simp, by simp, h, by simp⟩
  | cons l ls ih =>
    have step := handleProcessorContentLine_fields hardwrap m l
    set m1 := handleProcessorContentLine hardwrap m l with hm1
    have hb1 : m1.atBottom = true := step.2.2.1.trans h
    have ihm1 := ih m1 hb1
    have hlen1 : m1.outputContent.length = m.outputContent.length + 1 := by
      rw [step.2.1]
      simp [formatContentLine_length]
    refine ⟨?_, ?_, ?_, ?_, ?_⟩
    · rw [List.foldl_cons, ← hm1, ihm1.1, step.1, List.append_assoc]
      rfl
    · rw [List.foldl_cons, ← hm1, ihm1.2.1, hlen1]
      simp [Nat.add_assoc, Nat.add_comm 1 ls.length]
    · rw [List.foldl_cons, ← hm1]
      have hle : m.outputContent.length ≤ m1.outputContent.length := by omega
      have htt := congrArg (fun t => List.take m.outputContent.length t) ihm1.2.2.1
      simp only at htt
      rw [List.take_take, min_eq_left hle] at htt
      rw [htt, step.2.1]
      have := List.take_left m.outputContent
        (formatContentLine hardwrap m.wrap m.lineNumbers
          (m.outputContent.length + 1) m.outputModel.width l)
      exact this
    · rw [List.foldl_cons, ← hm1]
      exact ihm1.2.2.2.1
    · intro _
      rw [List.foldl_cons, ← hm1]
      cases ls with
      | nil =>
        simpa using step.2.2.2 h
      | cons l2 rest =>
        exact ihm1.2.2.2.2 (by simp)

/-- A concrete model state used by the interaction-state-machine witnesses:
output window focused, pinned to bottom, two raw lines already cached in
formatted normal form at width 80. -/
def sampleModel : ModelState where
  selectorValue := ".level"
  formatValue := ""
  groups := insert "*" ∅
  rawOutputContent := ["alpha", "beta"]
  outputContent := ["alpha", "beta"]
  path := "log.json"
  jq := ""
  zoomed := false
  wrap := false
  lineNumbers := false
  width := 100
  height := 40
  atBottom := true
  selectedWindow := .outputWindow
  contentStopped := false
  groupsStopped := false
  outputModel := ⟨80, "alpha\nbeta", true⟩

/-- The identity stand-in for the external ansi.Hardwrap collaborator, used
by the concrete witnesses. -/
def identityHardwrap : Nat → String → String :=
  fun _ s => s

/-- Witness for C7: appending the single line "gamma" to the pinned
sampleModel grows both caches by one, keeps the old formatted cache as a
prefix, re-pins, and scrolls to the bottom. -/
theorem c7_pinned_content_append_witness :
    (["gamma"].foldl (handleProcessorContentLine identityHardwrap)
        sampleModel).rawOutputContent =
      sampleModel.rawOutputContent ++ ["gamma"] ∧
    (["gamma"].foldl (handleProcessorContentLine identityHardwrap)
        sampleModel).outputContent.length =
      sampleModel.outputContent.length + (["gamma"] : List String).length ∧
    (["gamma"].foldl (handleProcessorContentLine identityHardwrap)
        sampleModel).outputContent.take sampleModel.outputContent.length =
      sampleModel.outputContent ∧
    (["gamma"].foldl (handleProcessorContentLine identityHardwrap)
        sampleModel).atBottom = true ∧
    ((["gamma"] : List String) ≠ [] →
      (["gamma"].foldl (handleProcessorContentLine identityHardwrap)
          sampleModel).outputModel.atMax = true) :=
  c7_pinned_content_append identityHardwrap sampleModel ["gamma"] rfl

theorem updateOutputModelContent_fields (hardwrap : Nat → String → String)
    (m : ModelState) :
    (updateOutputModelContent hardwrap m).rawOutputContent = m.rawOutputContent ∧
    (updateOutputModelContent hardwrap m).wrap = m.wrap ∧
    (updateOutputModelContent hardwrap m).lineNumbers = m.lineNumbers ∧
    (updateOutputModelContent hardwrap m).selectedWindow = m.selectedWindow ∧
    (updateOutputModelContent hardwrap m).outputModel.width = m.outputModel.width ∧
    (updateOutputModelContent hardwrap m).atBottom = m.atBottom ∧
    (updateOutputModelContent hardwrap m).outputContent =
      reformatLines hardwrap m.wrap m.lineNumbers m.outputModel.width 1
        m.rawOutputContent := by
  refine ⟨rfl, rfl, rfl, rfl, ?_, rfl, rfl⟩
  by_cases h : m.atBottom <;>
    simp [updateOutputModelContent, h, Viewport.setContent, Viewport.gotoBottom]

/-- The state reloadContent leaves behind before any ContentStart arrives: the
raw and formatted caches both hold the literal "Loading..." placeholder (not
passed through formatContentLine), here with the output pane focused and five
columns wide. -/
def loadingModel : ModelState where
  selectorValue := ".level"
  formatValue := ""
  groups := insert "*" ∅
  rawOutputContent := ["Loading..."]
  outputContent := ["Loading..."]
  path := "log.json"
  jq := ""
  zoomed := false
  wrap := false
  lineNumbers := false
  width := 20
  height := 40
  atBottom := true
  selectedWindow := .outputWindow
  contentStopped := false
  groupsStopped := false
  outputModel := ⟨5, "Loading...", true⟩

/-- Claim C8 counterexample: double-toggling line numbers does not always
return the model to its original formatted output.  In the reachable
"Loading..." placeholder state with a 5-column output viewport, pressing "l"
twice leaves the formatted cache as ["Loadi"] (the placeholder re-truncated
by the reformat pass), not the original ["Loading..."]. -/
theorem c8_double_toggle_counterexample :
    ((handleGlobalKey identityHardwrap
        (handleGlobalKey identityHardwrap loadingModel "l").1 "l").1).outputContent ≠
      loadingModel.outputContent := by
  decide

theorem handleGlobalKey_w_focused (hardwrap : Nat → String → String)
    (m : ModelState) (hfocus : m.selectedWindow = WindowIndex.outputWindow) :
    handleGlobalKey hardwrap m "w" =
      (updateOutputModelContent hardwrap { m with wrap := !m.wrap }, true) := by
  unfold handleGlobalKey
  rw [if_pos rfl, if_pos hfocus]

theorem handleGlobalKey_l_focused (hardwrap : Nat → String → String)
    (m : ModelState) (hfocus : m.selectedWindow = WindowIndex.outputWindow) :
    handleGlobalKey hardwrap m "l" =
      (updateOutputModelContent hardwrap { m with lineNumbers := !m.lineNumbers },
        true) := by
  unfold handleGlobalKey
  rw [if_neg (by decide), if_pos rfl, if_pos hfocus]

theorem handleGlobalKey_w_unfocused (hardwrap : Nat → String → String)
    (m : ModelState) (hfocus : ¬m.selectedWindow = WindowIndex.outputWindow) :
    handleGlobalKey hardwrap m "w" = (m, false) := by
  unfold handleGlobalKey
  rw [if_pos rfl, if_neg hfocus]

theorem handleGlobalKey_l_unfocused (hardwrap : Nat → String → String)
    (m : ModelState) (hfocus : ¬m.selectedWindow = WindowIndex.outputWindow) :
    handleGlobalKey hardwrap m "l" = (m, false) := by
  unfold handleGlobalKey
  rw [if_neg (by decide), if_pos rfl, if_neg hfocus]

theorem update_toggle_wrap_restores (hardwrap : Nat → String → String)
    (m m1 : ModelState)
    (h1w : m1.wrap = !m.wrap) (h1ln : m1.lineNumbers = m.lineNumbers)
    (h1wd : m1.outputModel.width = m.outputModel.width)
    (h1raw : m1.rawOutputContent = m.rawOutputContent)
    (hnorm : m.outputContent =
      reformatLines hardwrap m.wrap m.lineNumbers m.outputModel.width 1
        m.rawOutputContent) :
    (updateOutputModelContent hardwrap
        { m1 with wrap := !m1.wrap }).outputContent = m.outputContent := by
  rw [(updateOutputModelContent_fields hardwrap _).2.2.2.2.2.2]
  show reformatLines hardwrap (!m1.wrap) m1.lineNumbers m1.outputModel.width 1
      m1.rawOutputContent = m.outputContent
  rw [h1w, Bool.not_not, h1ln, h1wd, h1raw]
  exact hnorm.symm

theorem update_toggle_ln_restores (hardwrap : Nat → String → String)
    (m m1 : ModelState)
    (h1w : m1.wrap = m.wrap) (h1ln : m1.lineNumbers = !m.lineNumbers)
    (h1wd : m1.outputModel.width = m.outputModel.width)
    (h1raw : m1.rawOutputContent = m.rawOutputContent)
    (hnorm : m.outputContent =
      reformatLines hardwrap m.wrap m.lineNumbers m.outputModel.width 1
        m.rawOutputContent) :
    (updateOutputModelContent hardwrap
        { m1 with lineNumbers := !m1.lineNumbers }).outputContent =
      m.outputContent := by
  rw [(updateOutputModelContent_fields hardwrap _).2.2.2.2.2.2]
  show reformatLines hardwrap m1.wrap (!m1.lineNumbers) m1.outputModel.width 1
      m1.rawOutputContent = m.outputContent
  rw [h1w, h1ln, Bool.not_not, h1wd, h1raw]
  exact hnorm.symm

/-- Claim C8 as amended: toggling wrap ("w") or line numbers ("l") with the
output pane focused never changes the raw cached content, only the formatted
cache; and the double-toggle returns the formatted cache to its original
value whenever that cache agrees with the current formatting of the raw cache
(which holds after any reformat pass, though not for the verbatim
"Loading..." placeholder). -/
theorem c8_toggle_preserves_raw (hardwrap : Nat → String → String)
    (m : ModelState) (key : String) (hkey : key = "w" ∨ key = "l") :
    ((handleGlobalKey hardwrap m key).1).rawOutputContent = m.rawOutputContent ∧
    (m.selectedWindow = .outputWindow →
      m.outputContent =
        reformatLines hardwrap m.wrap m.lineNumbers m.outputModel.width 1
          m.rawOutputContent →
      ((handleGlobalKey hardwrap
          (handleGlobalKey hardwrap m key).1 key).1).outputContent =
        m.outputContent) := by
  rcases hkey with hk | hk <;> subst hk <;>
    by_cases hfocus : m.selectedWindow = WindowIndex.outputWindow
  · have m1def := handleGlobalKey_w_focused hardwrap m hfocus
    have hfields := updateOutputModelContent_fields hardwrap
      { m with wrap := !m.wrap }
    constructor
    · rw [m1def]
      exact hfields.1
    · intro _ hnorm
      have hfocus1 : (updateOutputModelContent hardwrap
          { m with wrap := !m.wrap }).selectedWindow =
          WindowIndex.outputWindow := by
        rw [hfields.2.2.2.1]; exact hfocus
      have estep : (handleGlobalKey hardwrap
          (handleGlobalKey hardwrap m "w").1 "w").1 =
          updateOutputModelContent hardwrap
            { (updateOutputModelContent hardwrap { m with wrap := !m.wrap }) with
              wrap := !(updateOutputModelContent hardwrap
                { m with wrap := !m.wrap }).wrap } := by
        have hinner : (handleGlobalKey hardwrap m "w").1 =
            updateOutputModelContent hardwrap { m with wrap := !m.wrap } := by
          rw [m1def]
        rw [hinner, handleGlobalKey_w_focused hardwrap _ hfocus1]
      rw [estep]
      exact update_toggle_wrap_restores hardwrap m _
        hfields.2.1 hfields.2.2.1 hfields.2.2.2.2.1 hfields.1 hnorm
  · have m1def := handleGlobalKey_w_unfocused hardwrap m hfocus
    exact ⟨by rw [m1def], fun hf _ => absurd hf hfocus⟩
  · have m1def := handleGlobalKey_l_focused hardwrap m hfocus
    have hfields := updateOutputModelContent_fields hardwrap
      { m with lineNumbers := !m.lineNumbers }
    constructor
    · rw [m1def]
      exact hfields.1
    · intro _ hnorm
      have hfocus1 : (updateOutputModelContent hardwrap
          { m with lineNumbers := !m.lineNumbers }).selectedWindow =
          WindowIndex.outputWindow := by
        rw [hfields.2.2.2.1]; exact hfocus
      have estep : (handleGlobalKey hardwrap
          (handleGlobalKey hardwrap m "l").1 "l").1 =
          updateOutputModelContent hardwrap
            { (updateOutputModelContent hardwrap
                { m with lineNumbers := !m.lineNumbers }) with
              lineNumbers := !(updateOutputModelContent hardwrap
                { m with lineNumbers := !m.lineNumbers }).lineNumbers } := by
        have hinner : (handleGlobalKey hardwrap m "l").1 =
            updateOutputModelContent hardwrap
              { m with lineNumbers := !m.lineNumbers } := by
          rw [m1def]
        rw [hinner, handleGlobalKey_l_focused hardwrap _ hfocus1]
      rw [estep]
      exact update_toggle_ln_restores hardwrap m _
        hfields.2.1 hfields.2.2.1 hfields.2.2.2.2.1 hfields.1 hnorm
  · have m1def := handleGlobalKey_l_unfocused hardwrap m hfocus
    exact ⟨by rw [m1def], fun hf _ => absurd hf hfocus⟩

/-- Witness for C8 as amended: on sampleModel (output focused, formatted
cache in normal form at width 80), pressing "w" preserves the raw cache and
pressing it twice restores the formatted cache. -/
theorem c8_toggle_preserves_raw_witness :
    ((handleGlobalKey identityHardwrap sampleModel "w").1).rawOutputContent =
      sampleModel.rawOutputContent ∧
    (sampleModel.selectedWindow = .outputWindow →
      sampleModel.outputContent =
        reformatLines identityHardwrap sampleModel.wrap sampleModel.lineNumbers
          sampleModel.outputModel.width 1 sampleModel.rawOutputContent →
      ((handleGlobalKey identityHardwrap
          (handleGlobalKey identityHardwrap sampleModel "w").1 "w").1).outputContent =
        sampleModel.outputContent) :=
  c8_toggle_preserves_raw identityHardwrap sampleModel "w" (Or.inl rfl)

theorem incomplete_selector_iff (v : String) :
    (1 < v.data.length ∧ hasSuffixDot v = true) ↔
      (hasSuffixDot v = true ∧ v ≠ ".") := by
  constructor
  · rintro ⟨hlen, hdot⟩
    refine ⟨hdot, ?_⟩
    intro hv
    subst hv
    exact absurd hlen (by decide)
  · rintro ⟨hdot, hne⟩
    refine ⟨?_, hdot⟩
    have hdot' : v.data.getLast? = some '.' := by
      simpa [hasSuffixDot] using hdot
    by_contra hlen
    push_neg at hlen
    cases hd : v.data with
    | nil =>
      rw [hd] at hdot'
      simp at hdot'
    | cons c rest =>
      have hrest : rest = [] := by
        rw [hd] at hlen
        simp only [List.length_cons] at hlen
        exact List.eq_nil_of_length_eq_zero (by omega)
      subst hrest
      rw [hd] at hdot'
      simp at hdot'
      subst hdot'
      exact hne (String.ext (by rw [hd]))

/-- Claim C9: on a selector-box edit that changes the value, a new value that
is an incomplete path ending in the "." separator (it ends in "." and is not
the complete bare identity path ".", which is exactly the source's
len(newValue) > 1 guard) triggers no groups-pipeline restart, while a new
value that does not end in "." restarts the groups pipeline with the new
selector. -/
theorem c9_selector_edit_restart (m : ModelState) (newValue : String)
    (hchange : m.selectorValue ≠ newValue) :
    ((1 < newValue.data.length ∧ hasSuffixDot newValue = true) ↔
      (hasSuffixDot newValue = true ∧ newValue ≠ ".")) ∧
    (1 < newValue.data.length ∧ hasSuffixDot newValue = true →
      (handleSelectorMessage m newValue).2 = none) ∧
    (hasSuffixDot newValue = false →
      (handleSelectorMessage m newValue).2 =
        some ⟨.startGroups, newValue, "", "", m.path⟩) := by
  refine ⟨incomplete_selector_iff newValue, ?_, ?_⟩
  · intro hcond
    unfold handleSelectorMessage
    rw [if_neg hchange, if_pos hcond]
  · intro hdot
    unfold handleSelectorMessage
    rw [if_neg hchange, if_neg (by simp [hdot])]
    rfl

/-- Witness for C9: editing the selector from ".level" to ".msg" (which does
not end in ".") issues a groups restart carrying the new selector, and ".msg"
satisfies neither incompleteness characterisation. -/
theorem c9_selector_edit_restart_witness :
    ((1 < (".msg" : String).data.length ∧ hasSuffixDot ".msg" = true) ↔
      (hasSuffixDot ".msg" = true ∧ (".msg" : String) ≠ ".")) ∧
    (1 < (".msg" : String).data.length ∧ hasSuffixDot ".msg" = true →
      (handleSelectorMessage sampleModel ".msg").2 = none) ∧
    (hasSuffixDot ".msg" = false →
      (handleSelectorMessage sampleModel ".msg").2 =
        some ⟨.startGroups, ".msg", "", "", sampleModel.path⟩) :=
  c9_selector_edit_restart sampleModel ".msg" (by decide)

end Jlv
